import Mathlib

/-!
A shallow embedding of the monster AI routines in BlackTek Server's
`monster.cpp`, together with theorems checking the natural-language
specification of that file against the embedded code.

Conventions used throughout:
* creatures are identified by natural-number ids; a weak reference
  (`CreatureWeakPtr` in the source) is modelled as `Option Nat` /
  `Option`-of-a-record, where `none` is an expired weak pointer;
* map coordinates are integers; `Position::getDistanceX/Y` (absolute
  differences of unsigned coordinates) become `Int.natAbs` of the
  difference, and `Position::getOffsetX/Y p q` becomes `p - q` on the
  respective axis;
* external services (walkability of a tile, line of sight, random
  shuffles and coin flips, follow-assignment success) are passed in as
  explicit parameters.
-/

/-- The eight step directions of `enums.h` used by the movement code. -/
inductive Dir where
  | north | south | east | west
  | southwest | southeast | northwest | northeast
deriving DecidableEq, Repr

/-! ### C1: `Monster::onFollowCreatureComplete` (monster.cpp:600-620)

The source looks up the first target-list entry whose weak reference
locks to `creature`, erases it, and then reinserts the locked pointer:
at the front when `hasFollowPath` holds, otherwise at the back — the
back-reinsertion happening only for non-summons. -/

/-- Embedding of `Monster::onFollowCreatureComplete`. The target list is a
list of weak references (`none` = expired); `c` is the creature the follow
just completed on. -/
def onFollowCreatureComplete (isSummonM hasFollowPath : Bool)
    (tl : List (Option Nat)) (c : Nat) : List (Option Nat) :=
  if some c ∈ tl then
    let erased := tl.erase (some c)
    if hasFollowPath then
      some c :: erased
    else if !isSummonM then
      erased ++ [some c]
    else
      erased
  else
    tl

/-- C1 counterexample: the claim states that for a summon the completed
creature is never reinserted into the target list, regardless of whether a
follow path still exists.  In the code, when `hasFollowPath` holds the
front-reinsertion happens for summons and non-summons alike: a summon with
a live follow path keeps creature 1 in its target list. -/
theorem onFollowCreatureComplete_summon_reinserts :
    some 1 ∈ onFollowCreatureComplete true true [some 1] 1 := by
  decide

/-- C1 (amended): when `onFollowCreatureComplete(C)` runs with `C` in the
target list, `C`'s entry is removed and then: if a follow path still
exists, `C` is reinserted at the front (for summons and non-summons
alike); with no follow path, a non-summon reinserts `C` at the back while
a summon does not reinsert it. -/
theorem onFollowCreatureComplete_requeue (isS hasPath : Bool)
    (tl : List (Option Nat)) (c : Nat) (h : some c ∈ tl) :
    (hasPath = true →
      (onFollowCreatureComplete isS hasPath tl c).head? = some (some c) ∧
      (onFollowCreatureComplete isS hasPath tl c).count (some c)
        = tl.count (some c)) ∧
    (hasPath = false → isS = true →
      (onFollowCreatureComplete isS hasPath tl c).count (some c)
        = tl.count (some c) - 1) ∧
    (hasPath = false → isS = false →
      (onFollowCreatureComplete isS hasPath tl c).getLast? = some (some c) ∧
      (onFollowCreatureComplete isS hasPath tl c).count (some c)
        = tl.count (some c)) := by
  have hcnt : 0 < tl.count (some c) := List.count_pos_iff.mpr h
  refine ⟨fun hp => ?_, fun hp hs => ?_, fun hp hs => ?_⟩
  · simp [onFollowCreatureComplete, h, hp, List.count_erase_self,
      Nat.sub_add_cancel hcnt]
  · simp [onFollowCreatureComplete, h, hp, hs, List.count_erase_self]
  · simp [onFollowCreatureComplete, h, hp, hs, List.getLast?_concat,
      List.count_erase_self, Nat.sub_add_cancel hcnt]

/-- C1 witness: instantiation of the requeue theorem on the two-element
target list [2, 1] for a non-summon with no follow path. -/
theorem onFollowCreatureComplete_requeue_witness :
    (onFollowCreatureComplete false false [some 2, some 1] 1).getLast?
      = some (some 1) ∧
    (onFollowCreatureComplete false false [some 2, some 1] 1).count (some 1)
      = ([some 2, some 1] : List (Option Nat)).count (some 1) :=
  (onFollowCreatureComplete_requeue false false [some 2, some 1] 1
    (by decide)).2.2 rfl rfl

/-! ### Shared monster state for the registry / idle / health claims

This model backs `Monster::updateTargetList` (monster.cpp:365-397),
`Monster::onCreatureFound` (409-428), `Monster::addFriend`/`addTarget`
(319-350), `Monster::setIdle` (685-701), `Monster::updateIdleStatus`
(703-714) and `Monster::changeHealth` (2098-2103). -/

/-- An observed creature, as the monster's registry sees it.  `visible`
is `canSee(creature->getPosition())`, `removedW` is
`creature->isRemoved()` (removal from the world), and `isFr`/`isOp` are
the `isFriend`/`isOpponent` classifications of this creature for the
observing monster. -/
structure Cr where
  cid : Nat
  health : Int
  visible : Bool
  removedW : Bool
  isFr : Bool
  isOp : Bool
deriving DecidableEq, Repr

/-- The mutable monster state touched by the registry and idle logic.
`fl` is the friend list (strong references: the records themselves),
`tl` the target list (weak references: `none` = expired entry), `conds`
the `isAggressive()` flags of the active conditions. -/
structure MState where
  fl : List Cr
  tl : List (Option Cr)
  summonM : Bool
  removedM : Bool
  healthM : Int
  conds : List Bool
  isIdle : Bool
deriving DecidableEq, Repr

/-- Embedding of `Monster::addFriend`: idempotent insert into the friend
set (insertion order is irrelevant for a set; we append). -/
def addFriend (s : MState) (c : Cr) : MState :=
  if c ∈ s.fl then s else { s with fl := s.fl ++ [c] }

/-- Embedding of `Monster::addTarget`: insert only when no live entry
already locks to the creature, at the front or back per `pushFront`. -/
def addTarget (s : MState) (c : Cr) (pushFront : Bool) : MState :=
  if some c ∈ s.tl then s
  else if pushFront then { s with tl := some c :: s.tl }
  else { s with tl := s.tl ++ [some c] }

/-- Embedding of `Monster::setIdle`: a no-op when the monster is removed
or dead; going idle clears both lists (the `onIdleStatus` hook and the
creature-check (de)registration are external side effects). -/
def setIdle (s : MState) (idle : Bool) : MState :=
  if s.removedM = true ∨ s.healthM ≤ 0 then s
  else if idle then { s with isIdle := true, tl := [], fl := [] }
  else { s with isIdle := false }

/-- Embedding of `Monster::updateIdleStatus`: idle iff a non-summon with
an empty target list and no aggressive condition active. -/
def updateIdleStatus (s : MState) : MState :=
  let idle := !s.summonM && s.tl.isEmpty && !(s.conds.any (fun a => a))
  setIdle s idle

/-- Embedding of `Monster::onCreatureFound`: ignore invisible creatures;
add friends to the friend set and opponents to the target list, then
refresh the idle status. -/
def onCreatureFound (s : MState) (c : Cr) (pushFront : Bool) : MState :=
  if !c.visible then s
  else
    let s1 := if c.isFr then addFriend s c else s
    let s2 := if c.isOp then addTarget s1 c pushFront else s1
    updateIdleStatus s2

/-- Embedding of `Monster::updateTargetList`: drop friend entries that
are dead or out of sight, drop target entries whose weak reference is
expired or that are dead or out of sight, then run `onCreatureFound` on
every current spectator (the spectator enumeration excludes the monster
itself). -/
def updateTargetList (s : MState) (spectators : List Cr) : MState :=
  let fl1 := s.fl.filter (fun c => !(decide (c.health ≤ 0) || !c.visible))
  let tl1 := s.tl.filter (fun o =>
    match o with
    | none => false
    | some c => !(decide (c.health ≤ 0) || !c.visible))
  let s1 := { s with fl := fl1, tl := tl1 }
  spectators.foldl (fun st sp => onCreatureFound st sp false) s1

/-- Embedding of `Monster::changeHealth`: unconditionally leave the idle
state first, then delegate to `Creature::changeHealth` (which is outside
this file; it is abstracted as the function `app`). -/
def changeHealth (app : MState → Int → MState) (s : MState)
    (healthChange : Int) : MState :=
  app (setIdle s false) healthChange

/-! ### C2: reconciliation drops dead / invisible creatures -/

/-- Helper: `setIdle` either leaves both lists unchanged or clears both. -/
theorem setIdle_lists (s : MState) (b : Bool) :
    ((setIdle s b).fl = s.fl ∧ (setIdle s b).tl = s.tl) ∨
    ((setIdle s b).fl = [] ∧ (setIdle s b).tl = []) := by
  unfold setIdle
  split_ifs <;> simp

/-- Helper: `updateIdleStatus` either leaves both lists unchanged or
clears both. -/
theorem updateIdleStatus_lists (s : MState) :
    ((updateIdleStatus s).fl = s.fl ∧ (updateIdleStatus s).tl = s.tl) ∨
    ((updateIdleStatus s).fl = [] ∧ (updateIdleStatus s).tl = []) :=
  setIdle_lists s _

/-- Helper: `onCreatureFound` applied to a live spectator cannot introduce
a dead or invisible creature `e` into either list. -/
theorem onCreatureFound_not_introduces (e : Cr)
    (he : e.health ≤ 0 ∨ e.visible = false) (st : MState) (sp : Cr)
    (hsp : 0 < sp.health)
    (hP : e ∉ st.fl ∧ some e ∉ st.tl) :
    e ∉ (onCreatureFound st sp false).fl ∧
    some e ∉ (onCreatureFound st sp false).tl := by
  by_cases hv : sp.visible = true
  · have hne : e ≠ sp := by
      rintro rfl
      rcases he with h1 | h1
      · exact absurd hsp (not_lt.mpr h1)
      · rw [h1] at hv; exact Bool.false_ne_true hv
    unfold onCreatureFound
    rw [hv]
    simp only [Bool.not_true, Bool.false_eq_true, if_false]
    set s1 := if sp.isFr then addFriend st sp else st with hs1
    set s2 := if sp.isOp then addTarget s1 sp false else s1 with hs2
    have h1 : e ∉ s1.fl ∧ some e ∉ s1.tl := by
      rw [hs1]
      split_ifs with hf
      · unfold addFriend
        split_ifs with hmem
        · exact hP
        · refine ⟨?_, hP.2⟩
          simp only [List.mem_append, List.mem_singleton]
          rintro (h | h)
          · exact hP.1 h
          · exact hne h
      · exact hP
    have h2 : e ∉ s2.fl ∧ some e ∉ s2.tl := by
      rw [hs2]
      split_ifs with ho
      · unfold addTarget
        split_ifs with hmem hpf
        · exact h1
        · refine ⟨h1.1, ?_⟩
          simp only [List.mem_cons]
          rintro (h | h)
          · exact hne (Option.some_injective _ h)
          · exact h1.2 h
        · refine ⟨h1.1, ?_⟩
          simp only [List.mem_append, List.mem_singleton]
          rintro (h | h)
          · exact h1.2 h
          · exact hne (Option.some_injective _ h)
      · exact h1
    rcases updateIdleStatus_lists s2 with ⟨ha, hb⟩ | ⟨ha, hb⟩
    · rw [ha, hb]; exact h2
    · rw [ha, hb]; simp
  · unfold onCreatureFound
    simp only [Bool.not_eq_true] at hv
    rw [hv]
    simpa using hP

/-- Helper: folding `onCreatureFound` over live spectators preserves the
absence of a dead or invisible creature `e` from both lists. -/
theorem foldl_onCreatureFound_not_introduces (e : Cr)
    (he : e.health ≤ 0 ∨ e.visible = false) :
    ∀ (l : List Cr) (st : MState), (∀ sp ∈ l, 0 < sp.health) →
      e ∉ st.fl ∧ some e ∉ st.tl →
      e ∉ (l.foldl (fun st sp => onCreatureFound st sp false) st).fl ∧
      some e ∉ (l.foldl (fun st sp => onCreatureFound st sp false) st).tl := by
  intro l
  induction l with
  | nil => intro st _ hP; exact hP
  | cons a l ih =>
    intro st hl hP
    simp only [List.foldl_cons]
    exact ih _ (fun sp hsp => hl sp (List.mem_cons_of_mem a hsp))
      (onCreatureFound_not_introduces e he st a (hl a (List.mem_cons_self a l)) hP)

/-- C2 (amended): after `updateTargetList` runs — with every enumerated
spectator being a live on-map creature — any creature that is dead
(non-positive health) or out of sight is absent from both the friend
list and the target list.  Being removed from the world does not by
itself expel a still-live, still-visible creature (see the
counterexample below). -/
theorem updateTargetList_drops_dead_or_invisible (s : MState)
    (spect : List Cr) (hsp : ∀ sp ∈ spect, 0 < sp.health) (e : Cr)
    (he : e.health ≤ 0 ∨ e.visible = false) :
    e ∉ (updateTargetList s spect).fl ∧
    some e ∉ (updateTargetList s spect).tl := by
  unfold updateTargetList
  apply foldl_onCreatureFound_not_introduces e he spect _ hsp
  constructor
  · intro hmem
    have hpred : ¬ e.health ≤ 0 ∧ e.visible = true := by
      simpa using (List.mem_filter.mp hmem).2
    rcases he with h1 | h1
    · exact hpred.1 h1
    · rw [h1] at hpred; exact Bool.false_ne_true hpred.2
  · intro hmem
    have hpred : ¬ e.health ≤ 0 ∧ e.visible = true := by
      simpa using (List.mem_filter.mp hmem).2
    rcases he with h1 | h1
    · exact hpred.1 h1
    · rw [h1] at hpred; exact Bool.false_ne_true hpred.2

/-- C2 witness: a dead friend, an out-of-sight target entry and an
expired target entry are all dropped by a reconciliation pass that finds
one live spectator. -/
theorem updateTargetList_drops_dead_or_invisible_witness :
    (⟨1, 0, true, false, true, false⟩ : Cr) ∉
      (updateTargetList
        ⟨[⟨1, 0, true, false, true, false⟩],
         [some ⟨2, 7, false, false, false, true⟩, none],
         false, false, 100, [], false⟩
        [⟨3, 5, true, false, false, true⟩]).fl ∧
    some (⟨1, 0, true, false, true, false⟩ : Cr) ∉
      (updateTargetList
        ⟨[⟨1, 0, true, false, true, false⟩],
         [some ⟨2, 7, false, false, false, true⟩, none],
         false, false, 100, [], false⟩
        [⟨3, 5, true, false, false, true⟩]).tl :=
  updateTargetList_drops_dead_or_invisible _ _ (by decide) _ (Or.inl (by decide))

/-- C2 counterexample: the claim also demands that a creature removed
from the world be dropped by the next reconciliation pass.  The friend
list holds strong references and `updateTargetList` only tests health
and visibility there, so a removed-but-live, still-visible friend
survives the pass. -/
theorem updateTargetList_keeps_removed_friend :
    (⟨1, 5, true, true, true, false⟩ : Cr).removedW = true ∧
    (0 : Int) < (⟨1, 5, true, true, true, false⟩ : Cr).health ∧
    (⟨1, 5, true, true, true, false⟩ : Cr) ∈
      (updateTargetList
        ⟨[⟨1, 5, true, true, true, false⟩], [], false, false, 100, [], false⟩
        []).fl := by
  decide

/-! ### C8: idle status invariant -/

/-- Helper: field preservation of `addFriend`. -/
theorem addFriend_fields (s : MState) (c : Cr) :
    (addFriend s c).tl = s.tl ∧ (addFriend s c).removedM = s.removedM ∧
    (addFriend s c).healthM = s.healthM := by
  unfold addFriend; split_ifs <;> simp

/-- Helper: `addTarget` preserves the monster's own flags and leaves a
non-empty target list. -/
theorem addTarget_fields (s : MState) (c : Cr) (pf : Bool) :
    (addTarget s c pf).removedM = s.removedM ∧
    (addTarget s c pf).healthM = s.healthM ∧
    (addTarget s c pf).tl ≠ [] := by
  unfold addTarget
  split_ifs with h1 h2
  · exact ⟨rfl, rfl, List.ne_nil_of_mem h1⟩
  · simp
  · simp

/-- Helper: a live, present monster with a non-empty target list is set
non-idle by `updateIdleStatus`. -/
theorem updateIdleStatus_isIdle_false (s : MState) (hr : s.removedM = false)
    (hh : 0 < s.healthM) (htl : s.tl ≠ []) :
    (updateIdleStatus s).isIdle = false := by
  unfold updateIdleStatus setIdle
  have hE : s.tl.isEmpty = false := by
    simpa [List.isEmpty_iff] using htl
  simp [hr, not_le.mpr hh, hE]

/-- C8: a live, present, non-summon monster with an empty target list and
no aggressive condition becomes idle after `updateIdleStatus` — and going
idle clears both lists, so idle implies empty lists; and as soon as
`onCreatureFound` registers any visible opponent, the idle-status update
it performs leaves the monster non-idle. -/
theorem updateIdleStatus_spec (s : MState) (hs : s.summonM = false)
    (hr : s.removedM = false) (hh : 0 < s.healthM) :
    (s.tl = [] → s.conds.any (fun a => a) = false →
      (updateIdleStatus s).isIdle = true ∧
      (updateIdleStatus s).tl = [] ∧ (updateIdleStatus s).fl = []) ∧
    (∀ c : Cr, c.visible = true → c.isOp = true →
      (onCreatureFound s c false).isIdle = false) := by
  constructor
  · intro htl hconds
    unfold updateIdleStatus setIdle
    simp [hs, hr, htl, hconds, not_le.mpr hh]
  · intro c hv ho
    unfold onCreatureFound
    rw [hv]
    simp only [Bool.not_true, Bool.false_eq_true, if_false, ho, if_true]
    have h1 : (if c.isFr then addFriend s c else s).removedM = false ∧
        (if c.isFr then addFriend s c else s).healthM = s.healthM := by
      split_ifs
      · exact ⟨(addFriend_fields s c).2.1.trans hr, (addFriend_fields s c).2.2⟩
      · exact ⟨hr, rfl⟩
    refine updateIdleStatus_isIdle_false _ ?_ ?_ ?_
    · exact (addTarget_fields _ c false).1.trans h1.1
    · rw [(addTarget_fields _ c false).2.1, h1.2]; exact hh
    · exact (addTarget_fields _ c false).2.2

/-- C8 witness: a live non-summon with no targets and no conditions goes
idle (lists cleared), and finding a visible opponent leaves it non-idle. -/
theorem updateIdleStatus_spec_witness :
    ((updateIdleStatus ⟨[], [], false, false, 50, [], false⟩).isIdle = true ∧
     (updateIdleStatus ⟨[], [], false, false, 50, [], false⟩).tl = [] ∧
     (updateIdleStatus ⟨[], [], false, false, 50, [], false⟩).fl = []) ∧
    (onCreatureFound ⟨[], [], false, false, 50, [], false⟩
      ⟨9, 40, true, false, false, true⟩ false).isIdle = false :=
  ⟨(updateIdleStatus_spec ⟨[], [], false, false, 50, [], false⟩ rfl rfl
      (by norm_num)).1 rfl rfl,
   (updateIdleStatus_spec ⟨[], [], false, false, 50, [], false⟩ rfl rfl
      (by norm_num)).2 ⟨9, 40, true, false, false, true⟩ rfl rfl⟩

/-! ### C9: `Monster::changeHealth` leaves idle before applying the change -/

/-- C9: on a live, present monster, `changeHealth` hands the base-class
health application a state that has already been marked non-idle, for any
health change (healing included); leaving idle touches nothing else. -/
theorem changeHealth_unidles (app : MState → Int → MState) (s : MState)
    (d : Int) (hr : s.removedM = false) (hh : 0 < s.healthM) :
    changeHealth app s d = app (setIdle s false) d ∧
    (setIdle s false).isIdle = false ∧
    (setIdle s false).tl = s.tl ∧ (setIdle s false).fl = s.fl ∧
    (setIdle s false).healthM = s.healthM := by
  refine ⟨rfl, ?_⟩
  unfold setIdle
  simp [hr, not_le.mpr hh]

/-- A sample base-class health application, used only to witness the
`changeHealth` theorem at a concrete input. -/
def applyHealth : MState → Int → MState :=
  fun st d => { st with healthM := st.healthM + d }

/-- C9 witness: instantiation of the changeHealth theorem on a concrete
live monster and a healing change of +10. -/
theorem changeHealth_unidles_witness :
    changeHealth applyHealth ⟨[], [], false, false, 40, [], true⟩ 10
      = applyHealth (setIdle ⟨[], [], false, false, 40, [], true⟩ false) 10 ∧
    (setIdle ⟨[], [], false, false, 40, [], true⟩ false).isIdle = false ∧
    (setIdle ⟨[], [], false, false, 40, [], true⟩ false).tl = [] ∧
    (setIdle ⟨[], [], false, false, 40, [], true⟩ false).fl = [] ∧
    (setIdle ⟨[], [], false, false, 40, [], true⟩ false).healthM = 40 :=
  changeHealth_unidles applyHealth ⟨[], [], false, false, 40, [], true⟩ 10
    rfl (by norm_num)

/-! ### C3: `Monster::canUseSpell` / `Monster::doAttacking` cadence
(monster.cpp:877-903 and 809-860) -/

/-- Static per-species attack/defense spell descriptor (`spellBlock_t`).
Only the fields the scheduling logic reads are modelled. -/
structure SpellBlock where
  speed : Nat
  chance : Nat
  range : Nat
  isMelee : Bool
deriving DecidableEq, Repr

/-- Embedding of `Monster::canUseSpell` (the spell-block overload).
`dist` is the Chebyshev distance between monster and target,
`sinceLastMelee` is `OTSYS_TIME() - lastMeleeAttack`.  The result triple
is (return value, `inRange` out-parameter, whether the caller's
`resetTicks` accumulator survives this block: the source sets
`resetTicks = false` exactly in the `sb.speed > attackTicks` branch). -/
def canUseSpell (dist : Nat) (fleeing : Bool) (sinceLastMelee : Nat)
    (sb : SpellBlock) (attackTicks interval : Nat) : Bool × Bool × Bool :=
  let gate : Option (Bool × Bool × Bool) :=
    if sb.isMelee then
      if fleeing = true ∨ sinceLastMelee < sb.speed then
        some (false, true, true)
      else none
    else
      if sb.speed > attackTicks then some (false, true, false)
      else if attackTicks % sb.speed ≥ interval then some (false, true, true)
      else none
  match gate with
  | some r => r
  | none =>
    if sb.range ≠ 0 ∧ dist > sb.range then (false, false, true)
    else (true, true, true)

/-- One `Monster::doAttacking` tick for a species with a single ranged
(non-melee) attack spell block: advance `attackTicks` by `interval`, test
the block, and reset `attackTicks` to zero when no block is still
waiting.  Returns the new `attackTicks` and whether the block was
eligible to fire (the chance roll and the actual cast happen after
eligibility and do not affect the counters). -/
def attackTick (sb : SpellBlock) (dist interval attackTicks : Nat) :
    Nat × Bool :=
  let t := attackTicks + interval
  let r := canUseSpell dist false 0 sb t interval
  let resetTicks := decide (interval ≠ 0) && r.2.2
  (if resetTicks then 0 else t, r.1)

/-- Iterated attack phase: run `attackTick` `n` times from `attackTicks
= 0` and count the eligible-to-fire ticks. -/
def runAttack (sb : SpellBlock) (dist interval : Nat) : Nat → Nat × Nat
  | 0 => (0, 0)
  | n + 1 =>
    let p := runAttack sb dist interval n
    let q := attackTick sb dist interval p.1
    (q.1, p.2 + if q.2 then 1 else 0)

/-- C3: a non-melee spell block with cooldown `speed > 0` is eligible to
fire only when `attackTicks ≥ speed` and `attackTicks % speed <
interval`; and with cooldown 2000 and four attack-phase calls of
interval 500 the block yields exactly one fire attempt. -/
theorem canUseSpell_cadence :
    (∀ (sb : SpellBlock) (dist : Nat) (fleeing : Bool)
        (sml attackTicks interval : Nat),
      sb.isMelee = false → 0 < sb.speed →
      (canUseSpell dist fleeing sml sb attackTicks interval).1 = true →
      sb.speed ≤ attackTicks ∧ attackTicks % sb.speed < interval) ∧
    (runAttack ⟨2000, 100, 0, false⟩ 1 500 4).2 = 1 := by
  constructor
  · intro sb dist fleeing sml attackTicks interval hm _hsp h
    simp only [canUseSpell, hm, Bool.false_eq_true, if_false] at h
    split_ifs at h with h1 h2 h3 <;>
      first
        | simpa using h
        | exact ⟨not_lt.mp h1, not_le.mp h2⟩
  · decide

/-- C3 witness: the eligibility condition instantiated at `attackTicks =
2000`, cooldown 2000, interval 500. -/
theorem canUseSpell_cadence_witness :
    (2000 : Nat) ≥ 2000 ∧ 2000 % 2000 < 500 :=
  canUseSpell_cadence.1 ⟨2000, 100, 0, false⟩ 1 false 0 2000 500 rfl
    (by norm_num) (by decide)

/-! ### C5: summon cap in `Monster::onThinkDefense` (monster.cpp:977-1022) -/

/-- Embedding of `toLowerCaseString` for names modelled as lists of
ASCII codes (the source applies per-character `tolower`). -/
def toLowerCaseString (s : List Nat) : List Nat :=
  s.map (fun c => if 65 ≤ c ∧ c ≤ 90 then c + 32 else c)

/-- Static summon descriptor (`summonBlock_t`): species name, per-species
cap, cooldown and chance. -/
structure SummonBlock where
  name : List Nat
  max : Nat
  speed : Nat
  chance : Nat
deriving DecidableEq, Repr

/-- Embedding of one summon block's pass in the summon phase of
`Monster::onThinkDefense`.  `summons` holds the registered (lowercase)
names of the live summons; `roll` is the `uniform_random(1, 100)` draw;
`placeOk` abstracts `createMonster` + `placeCreature` succeeding.
Returns whether a new summon of this block's species is created. -/
def summonBlockStep (isSummonM : Bool) (maxSummons : Nat)
    (hasFollowPath : Bool) (summons : List (List Nat)) (blk : SummonBlock)
    (defenseTicks interval roll : Nat) (placeOk : Bool) : Bool :=
  if !(!isSummonM && decide (summons.length < maxSummons) && hasFollowPath) then
    false
  else if blk.speed > defenseTicks then
    false
  else if summons.length ≥ maxSummons then
    false
  else if defenseTicks % blk.speed ≥ interval then
    false
  else if summons.countP (fun n => n = toLowerCaseString blk.name) ≥ blk.max then
    false
  else if blk.chance < roll then
    false
  else
    placeOk

/-- C5: when the number of live summons registered under the block's
(lowercased) species name has reached the block's cap, the block never
creates a new summon, whatever the chance roll or placement outcome. -/
theorem summonBlockStep_cap (isSummonM : Bool) (maxSummons : Nat)
    (hasFollowPath : Bool) (summons : List (List Nat)) (blk : SummonBlock)
    (defenseTicks interval roll : Nat) (placeOk : Bool)
    (hcap : blk.max ≤ summons.countP (fun n => n = toLowerCaseString blk.name)) :
    summonBlockStep isSummonM maxSummons hasFollowPath summons blk
      defenseTicks interval roll placeOk = false := by
  unfold summonBlockStep
  split_ifs <;> first | rfl | exact absurd hcap (by assumption)

/-- C5 witness: two live summons named "de" and a block for species "De"
capped at 2: a third summon attempt never succeeds. -/
theorem summonBlockStep_cap_witness :
    summonBlockStep false 10 true [[100, 101], [100, 101]]
      ⟨[68, 101], 2, 1000, 100⟩ 1000 1000 1 true = false :=
  summonBlockStep_cap false 10 true [[100, 101], [100, 101]]
    ⟨[68, 101], 2, 1000, 100⟩ 1000 1000 1 true (by decide)

/-! ### C10: elemental adjustment in `Monster::blockHit` (monster.cpp:624-645) -/

/-- The `BlockType_t` values of the combat code. -/
inductive BlockType where
  | blockNone | blockDefense | blockArmor | blockImmunity
deriving DecidableEq, Repr

/-- Rounding to the nearest integer with ties away from zero, the
semantics of C++ `std::round` (the source computes the product in
`double`; the embedding uses exact rational arithmetic). -/
def roundHalfAway (q : Rat) : Int :=
  if 0 ≤ q then ⌊q + 1 / 2⌋ else -⌊-q + 1 / 2⌋

/-- Embedding of the elemental part of `Monster::blockHit`.  `baseBlock`
and `damage` are the block type and damage produced by the base-class
`Creature::blockHit` call; `elementMod` is the species' elemental
modifier for the incoming combat type (`0` when the `elementMap` has no
entry).  Returns the final block type and damage out-parameter. -/
def blockHit (baseBlock : BlockType) (damage elementMod : Int) :
    BlockType × Int :=
  if damage ≠ 0 then
    if elementMod ≠ 0 then
      let d := roundHalfAway ((damage : Rat) * ((100 - elementMod : Int) : Rat) / 100)
      if d ≤ 0 then (BlockType.blockArmor, 0) else (baseBlock, d)
    else (baseBlock, damage)
  else (baseBlock, damage)

/-- C10: with a non-zero elemental modifier the elemental adjustment
never returns negative damage, and whenever it takes a positive damage
value to zero or below, the damage is set to exactly 0 and the block
type becomes BLOCK_ARMOR. -/
theorem blockHit_elemental_clamp (baseBlock : BlockType)
    (damage elementMod : Int) (hem : elementMod ≠ 0) :
    0 ≤ (blockHit baseBlock damage elementMod).2 ∧
    (0 < damage →
      roundHalfAway ((damage : Rat) * ((100 - elementMod : Int) : Rat) / 100) ≤ 0 →
      blockHit baseBlock damage elementMod = (BlockType.blockArmor, 0)) := by
  constructor
  · simp only [blockHit]
    by_cases h1 : damage ≠ 0
    · rw [if_pos h1, if_pos hem]
      by_cases h3 :
        roundHalfAway ((damage : Rat) * ((100 - elementMod : Int) : Rat) / 100) ≤ 0
      · rw [if_pos h3]
      · rw [if_neg h3]
        exact le_of_lt (not_le.mp h3)
    · rw [if_neg h1]
      simp [not_not.mp h1]
  · intro hpos hle
    simp only [blockHit]
    rw [if_pos (ne_of_gt hpos), if_pos hem, if_pos hle]

/-- C10 witness: damage 10 against a 100% elemental modifier is clamped
to 0 with BLOCK_ARMOR. -/
theorem blockHit_elemental_clamp_witness :
    blockHit BlockType.blockNone 10 100 = (BlockType.blockArmor, 0) :=
  (blockHit_elemental_clamp BlockType.blockNone 10 100 (by norm_num)).2
    (by norm_num) (by norm_num [roundHalfAway])

/-! ### C7: `Monster::getDanceStep` (monster.cpp:1262-1343) -/

/-- Embedding of `getNextPosition` for the step directions, on integer
coordinates (x grows east, y grows south, as in the source). -/
def stepPos (d : Dir) (x y : Int) : Int × Int :=
  match d with
  | Dir.north => (x, y - 1)
  | Dir.south => (x, y + 1)
  | Dir.east => (x + 1, y)
  | Dir.west => (x - 1, y)
  | Dir.southwest => (x - 1, y + 1)
  | Dir.southeast => (x + 1, y + 1)
  | Dir.northwest => (x - 1, y - 1)
  | Dir.northeast => (x + 1, y - 1)

/-- Chebyshev distance between two integer points, as computed by
`std::max(Position::getDistanceX, Position::getDistanceY)`. -/
def chebDist (ax ay bx b2 : Int) : Nat :=
  max (ax - bx).natAbs (ay - b2).natAbs

/-- Embedding of `Monster::getDanceStep`: the list of candidate
directions the function collects before shuffling and picking one
uniformly at random (the returned direction is always a member of this
list).  `(cx, cy)` is the monster, `(tx, ty)` the attacked creature,
`canWalk` is `canWalkTo`, and `canAttackFrom` is `canUseAttack` from a
given position against the attacked creature. -/
def getDanceStep (cx cy tx ty : Int) (canWalk : Dir → Bool)
    (canAttackFrom : Int → Int → Bool)
    (keepAttack keepDistance : Bool) : List Dir :=
  let canDoAttackNow := canAttackFrom cx cy
  let ox := cx - tx
  let oy := cy - ty
  let dxv := ox.natAbs
  let dyv := oy.natAbs
  let centerToDist := max dxv dyv
  let keep (px py : Int) : Bool :=
    !keepAttack || (!canDoAttackNow || canAttackFrom px py)
  ((if (!keepDistance || decide (0 ≤ oy))
        && decide (max dxv ((cy - 1) - ty).natAbs = centerToDist)
        && canWalk Dir.north && keep cx (cy - 1) then [Dir.north] else []) ++
   (if (!keepDistance || decide (oy ≤ 0))
        && decide (max dxv ((cy + 1) - ty).natAbs = centerToDist)
        && canWalk Dir.south && keep cx (cy + 1) then [Dir.south] else []) ++
   (if (!keepDistance || decide (ox ≤ 0))
        && decide (max ((cx + 1) - tx).natAbs dyv = centerToDist)
        && canWalk Dir.east && keep (cx + 1) cy then [Dir.east] else []) ++
   (if (!keepDistance || decide (0 ≤ ox))
        && decide (max ((cx - 1) - tx).natAbs dyv = centerToDist)
        && canWalk Dir.west && keep (cx - 1) cy then [Dir.west] else []))

/-- C7: every direction `getDanceStep` can return preserves the
Chebyshev distance between the monster and the attacked creature, for
either value of `keepDistance` (and of `keepAttack`): each candidate is
admitted only under `tmpDist == centerToDist`. -/
theorem getDanceStep_preserves_chebyshev (cx cy tx ty : Int)
    (canWalk : Dir → Bool) (canAttackFrom : Int → Int → Bool)
    (keepAttack keepDistance : Bool) (d : Dir)
    (hd : d ∈ getDanceStep cx cy tx ty canWalk canAttackFrom
      keepAttack keepDistance) :
    chebDist (stepPos d cx cy).1 (stepPos d cx cy).2 tx ty
      = chebDist cx cy tx ty := by
  simp only [getDanceStep, List.mem_append] at hd
  rcases hd with ((h | h) | h) | h <;>
  · revert h
    split_ifs with hc
    · intro h
      rw [List.mem_singleton] at h
      subst h
      simp only [Bool.and_eq_true, decide_eq_true_eq] at hc
      simpa [stepPos, chebDist] using hc.1.1.2
    · intro h
      exact absurd h (List.not_mem_nil d)

/-- C7 witness: attacker at (10,10), target at (13,10), everything
walkable, keepDistance on: the north step keeps the Chebyshev distance
at 3. -/
theorem getDanceStep_preserves_chebyshev_witness :
    chebDist (stepPos Dir.north 10 10).1 (stepPos Dir.north 10 10).2 13 10
      = chebDist 10 10 13 10 :=
  getDanceStep_preserves_chebyshev 10 10 13 10 (fun _ => true)
    (fun _ _ => true) false true Dir.north (by decide)

/-! ### C4: `Monster::searchTarget(TARGETSEARCH_NEAREST)` (monster.cpp:512-597) -/

/-- One entry of the target list as the search sees it: weak-reference
liveness (`lockOk`), `isTarget` eligibility (`targetOk`), whether
`canUseAttack(myPos, creature)` holds (`inRange`), and the creature's
position. -/
structure Tgt where
  cid : Nat
  lockOk : Bool
  targetOk : Bool
  inRange : Bool
  px : Int
  py : Int
deriving DecidableEq, Repr

/-- Manhattan distance `getDistanceX + getDistanceY` from the monster at
`(mx, my)` to a target-list entry. -/
def mdist (mx my : Int) (c : Tgt) : Nat :=
  (mx - c.px).natAbs + (my - c.py).natAbs

/-- The strict-minimum scan of the NEAREST branch: start from the first
candidate and replace it whenever a strictly smaller Manhattan distance
is found (so the first entry of minimal distance wins). -/
def minBy (mx my : Int) (t : Tgt) (l : List Tgt) : Tgt :=
  l.foldl (fun best c => if mdist mx my c < mdist mx my best then c else best) t

/-- One step of the fallback scan of the NEAREST branch: while no target
is held, `minRange` is `std::numeric_limits<int32_t>::max()`; once a
target is held, `minRange` equals its distance. -/
def fbStep (mx my : Int) (acc : Option Tgt) (c : Tgt) : Option Tgt :=
  match acc with
  | none => if mdist mx my c < 2147483647 then some c else none
  | some b => if mdist mx my c < mdist mx my b then some c else some b

/-- The fallback scan of the NEAREST branch when no candidate is in
attack range: the target starts null; every strictly closer entry is
taken. -/
def fallbackScan (mx my : Int) (l : List Tgt) : Option Tgt :=
  l.foldl (fbStep mx my) none

/-- Embedding of `Monster::selectTarget`: fails when the creature is not
target-eligible or no live target-list entry locks to it; otherwise the
return value is `setFollowCreature`'s outcome, abstracted as `selOk`
(the `setAttackedCreature` call and the deferred attack-check task do
not affect the return value). -/
def selectTarget (follow : Option Nat) (tl : List Tgt) (selOk : Nat → Bool)
    (c : Tgt) : Bool :=
  c.targetOk && tl.any (fun e => e.lockOk && e.cid == c.cid) && selOk c.cid

/-- The NEAREST candidate filter of `searchTarget`: live entry, not the
current follow creature, target-eligible and attack-range capable. -/
def nearestCandP (follow : Option Nat) (c : Tgt) : Bool :=
  c.lockOk && !(follow == some c.cid) && c.targetOk && c.inRange

/-- The fallback filter of the NEAREST branch: live and target-eligible
(the current follow creature is not excluded there). -/
def eligibleP (c : Tgt) : Bool :=
  c.lockOk && c.targetOk

/-- The last-resort loop at the bottom of `searchTarget`: walk the target
list in order and select the first live non-follow entry for which
`selectTarget` succeeds. -/
def searchTargetFallbackLoop (follow : Option Nat) (selOk : Nat → Bool)
    (tl : List Tgt) : Option Nat × Bool :=
  match tl.find? (fun c =>
      c.lockOk && !(follow == some c.cid) && selectTarget follow tl selOk c) with
  | some c => (some c.cid, true)
  | none => (none, false)

/-- Embedding of `Monster::searchTarget(TARGETSEARCH_NEAREST)`: build the
in-range candidate list; when non-empty take the first strict minimum of
Manhattan distance, else run the fallback scan over the live eligible
entries; try `selectTarget` on it; on failure fall through to the bottom
loop.  Returns the selected creature id (if any) and the boolean result. -/
def searchTargetNearest (mx my : Int) (follow : Option Nat)
    (selOk : Nat → Bool) (tl : List Tgt) : Option Nat × Bool :=
  let resultList := tl.filter (nearestCandP follow)
  let target : Option Tgt :=
    match resultList with
    | [] => fallbackScan mx my (tl.filter eligibleP)
    | t :: rest => some (minBy mx my t rest)
  match target with
  | some t =>
    if selectTarget follow tl selOk t then (some t.cid, true)
    else searchTargetFallbackLoop follow selOk tl
  | none => searchTargetFallbackLoop follow selOk tl

/-- Helper: the minimum scan stays within the candidates. -/
theorem minBy_mem (mx my : Int) :
    ∀ (l : List Tgt) (t : Tgt), minBy mx my t l ∈ t :: l := by
  intro l
  induction l with
  | nil => intro t; simp [minBy]
  | cons c rest ih =>
    intro t
    have h : minBy mx my t (c :: rest)
        = minBy mx my (if mdist mx my c < mdist mx my t then c else t) rest := by
      simp [minBy]
    rw [h]
    rcases List.mem_cons.mp (ih (if mdist mx my c < mdist mx my t then c else t)) with
      h1 | h1
    · rw [h1]
      split_ifs <;> simp
    · exact List.mem_cons_of_mem _ (List.mem_cons_of_mem _ h1)

/-- Helper: the minimum scan attains the minimum distance. -/
theorem minBy_le (mx my : Int) :
    ∀ (l : List Tgt) (t : Tgt), ∀ u ∈ t :: l,
      mdist mx my (minBy mx my t l) ≤ mdist mx my u := by
  intro l
  induction l with
  | nil =>
    intro t u hu
    have h : u = t := by simpa using hu
    subst h
    simp [minBy]
  | cons c rest ih =>
    intro t u hu
    have h : minBy mx my t (c :: rest)
        = minBy mx my (if mdist mx my c < mdist mx my t then c else t) rest := by
      simp [minBy]
    rw [h]
    have hft : mdist mx my (if mdist mx my c < mdist mx my t then c else t)
        ≤ mdist mx my t := by
      split_ifs with hlt
      · exact le_of_lt hlt
      · exact le_refl _
    have hfc : mdist mx my (if mdist mx my c < mdist mx my t then c else t)
        ≤ mdist mx my c := by
      split_ifs with hlt
      · exact le_refl _
      · exact not_lt.mp hlt
    have hhead := ih (if mdist mx my c < mdist mx my t then c else t) _
      (List.mem_cons_self _ _)
    rcases List.mem_cons.mp hu with h1 | h1
    · subst h1
      exact le_trans hhead hft
    · rcases List.mem_cons.mp h1 with h2 | h2
      · subst h2
        exact le_trans hhead hfc
      · exact ih _ u (List.mem_cons_of_mem _ h2)

/-- Helper: once the fallback scan holds a target, it behaves exactly
like the strict-minimum scan. -/
theorem fallbackScan_foldl_some (mx my : Int) :
    ∀ (l : List Tgt) (b : Tgt),
      l.foldl (fbStep mx my) (some b) = some (minBy mx my b l) := by
  intro l
  induction l with
  | nil => intro b; simp [minBy]
  | cons c rest ih =>
    intro b
    have h1 : minBy mx my b (c :: rest)
        = minBy mx my (if mdist mx my c < mdist mx my b then c else b) rest := by
      simp [minBy]
    have h2 : fbStep mx my (some b) c
        = some (if mdist mx my c < mdist mx my b then c else b) := by
      show (if mdist mx my c < mdist mx my b then some c else some b) = _
      split_ifs <;> rfl
    rw [List.foldl_cons, h2, ih, h1]

/-- Helper: on a non-empty list whose distances stay below INT32_MAX the
fallback scan returns a member of minimal distance. -/
theorem fallbackScan_spec (mx my : Int) (l : List Tgt)
    (hM : ∀ c ∈ l, mdist mx my c < 2147483647) (hne : l ≠ []) :
    ∃ t, fallbackScan mx my l = some t ∧ t ∈ l ∧
      ∀ u ∈ l, mdist mx my t ≤ mdist mx my u := by
  match l, hne with
  | c :: rest, _ =>
    refine ⟨minBy mx my c rest, ?_, minBy_mem mx my rest c, minBy_le mx my rest c⟩
    have h0 : fbStep mx my none c = some c := by
      show (if mdist mx my c < 2147483647 then some c else none) = some c
      exact if_pos (hM c (List.mem_cons_self c rest))
    rw [fallbackScan, List.foldl_cons, h0, fallbackScan_foldl_some mx my rest c]

/-- Helper: `selectTarget` succeeds on a live, eligible member of the
target list when follow-assignment succeeds. -/
theorem selectTarget_true (follow : Option Nat) (tl : List Tgt)
    (selOk : Nat → Bool) (c : Tgt) (hc : c ∈ tl) (hl : c.lockOk = true)
    (ht : c.targetOk = true) (hs : selOk c.cid = true) :
    selectTarget follow tl selOk c = true := by
  unfold selectTarget
  rw [ht, hs]
  simp only [Bool.true_and, Bool.and_true]
  exact List.any_eq_true.mpr ⟨c, hc, by simp [hl]⟩

/-- C4: with follow-assignment succeeding on every live target, the
NEAREST search selects, and succeeds on, a candidate of minimal
Manhattan distance among the in-range candidates; and when no candidate
is in attack range it selects a minimal-distance creature over the full
live eligible target list (positions keep every distance below
INT32_MAX, as 16-bit map coordinates do). -/
theorem searchTargetNearest_minimal (mx my : Int) (follow : Option Nat)
    (selOk : Nat → Bool) (tl : List Tgt)
    (hsel : ∀ c ∈ tl, selOk c.cid = true)
    (hrange : ∀ c ∈ tl, mdist mx my c < 2147483647) :
    (tl.filter (nearestCandP follow) ≠ [] →
      ∃ t, t ∈ tl.filter (nearestCandP follow) ∧
        searchTargetNearest mx my follow selOk tl = (some t.cid, true) ∧
        ∀ u ∈ tl.filter (nearestCandP follow), mdist mx my t ≤ mdist mx my u) ∧
    (tl.filter (nearestCandP follow) = [] → tl.filter eligibleP ≠ [] →
      ∃ t, t ∈ tl.filter eligibleP ∧
        searchTargetNearest mx my follow selOk tl = (some t.cid, true) ∧
        ∀ u ∈ tl.filter eligibleP, mdist mx my t ≤ mdist mx my u) := by
  constructor
  · intro hne
    obtain ⟨t0, rest, heq⟩ : ∃ t0 rest, tl.filter (nearestCandP follow)
        = t0 :: rest := by
      match h : tl.filter (nearestCandP follow), hne with
      | t0 :: rest, _ => exact ⟨t0, rest, rfl⟩
    set t := minBy mx my t0 rest with hta
    have htmem : t ∈ tl.filter (nearestCandP follow) := by
      rw [heq]; exact minBy_mem mx my rest t0
    have htl : t ∈ tl := List.mem_of_mem_filter htmem
    have hp : nearestCandP follow t = true := List.of_mem_filter htmem
    have hlk : t.lockOk = true := by
      simp only [nearestCandP, Bool.and_eq_true] at hp
      exact hp.1.1.1
    have htg : t.targetOk = true := by
      simp only [nearestCandP, Bool.and_eq_true] at hp
      exact hp.1.2
    have hsl := selectTarget_true follow tl selOk t htl hlk htg (hsel t htl)
    refine ⟨t, htmem, ?_, by rw [heq]; exact minBy_le mx my rest t0⟩
    simp only [searchTargetNearest]
    rw [heq]
    simp only [hsl, if_true]
  · intro hcand hne
    obtain ⟨t, hfb, htmem, hmin⟩ := fallbackScan_spec mx my
      (tl.filter eligibleP)
      (fun c hc => hrange c (List.mem_of_mem_filter hc)) hne
    have htl : t ∈ tl := List.mem_of_mem_filter htmem
    have hp : eligibleP t = true := List.of_mem_filter htmem
    have hlk : t.lockOk = true := by
      simp only [eligibleP, Bool.and_eq_true] at hp
      exact hp.1
    have htg : t.targetOk = true := by
      simp only [eligibleP, Bool.and_eq_true] at hp
      exact hp.2
    have hsl := selectTarget_true follow tl selOk t htl hlk htg (hsel t htl)
    refine ⟨t, htmem, ?_, hmin⟩
    simp only [searchTargetNearest]
    rw [hcand, hfb]
    simp only [hsl, if_true]

/-- C4 witness: three in-range candidates at Manhattan distances 5, 3
and 3: the search succeeds and never returns the distance-5 creature. -/
theorem searchTargetNearest_minimal_witness :
    ([⟨1, true, true, true, 5, 0⟩, ⟨2, true, true, true, 3, 0⟩,
      ⟨3, true, true, true, 0, 3⟩] : List Tgt).filter (nearestCandP none)
      ≠ [] ∧
    (searchTargetNearest 0 0 none (fun _ => true)
      [⟨1, true, true, true, 5, 0⟩, ⟨2, true, true, true, 3, 0⟩,
       ⟨3, true, true, true, 0, 3⟩]).2 = true :=
  ⟨by decide, by
    obtain ⟨t, _, heq, _⟩ := (searchTargetNearest_minimal 0 0 none
      (fun _ => true)
      [⟨1, true, true, true, 5, 0⟩, ⟨2, true, true, true, 3, 0⟩,
       ⟨3, true, true, true, 0, 3⟩]
      (by decide) (by decide)).1 (by decide)
    rw [heq]⟩

/-! ### C6: `Monster::getDistanceStep` (monster.cpp:1345-1837)

The function is embedded branch for branch.  `boolean_random()` is the
parameter `coin` (every use in the source is immediately followed by a
return, so one flip per invocation suffices); `canWalkTo` is `canWalk`;
`getShuffleDirections()` is the parameter `shuffled`; the line-of-sight
query is the parameter `sight`.  The result is (return value, direction
out-parameter — `none` when the source leaves it unassigned — and the
updated `stepDuration`). -/

/-- Embedding of `Monster::getRandomStep`: first walkable direction of
the shuffled direction list. -/
def getRandomStep (shuffled : List Dir) (canWalk : Dir → Bool) : Option Dir :=
  shuffled.find? canWalk

/-- The `dx == dy` (diagonal) block of `getDistanceStep`: four quadrant
handlers, each ending in `return true`.  The final `none` arms
correspond to the source's fall-through exits that leave the direction
unassigned. -/
def distanceStepDiag (flee : Bool) (canWalk : Dir → Bool) (coin : Bool)
    (ox oy : Int) : Option Dir :=
  if 1 ≤ ox ∧ 1 ≤ oy then
    -- player is NW: escape to SE, S or E
    let s := canWalk Dir.south
    let e := canWalk Dir.east
    if s && e then some (if coin then Dir.south else Dir.east)
    else if s then some Dir.south
    else if e then some Dir.east
    else if canWalk Dir.southeast then some Dir.southeast
    else
      let n := canWalk Dir.north
      let w := canWalk Dir.west
      if flee && n && w then some (if coin then Dir.north else Dir.west)
      else if flee && n then some Dir.north
      else if flee && w then some Dir.west
      else if w && canWalk Dir.southwest then some Dir.west
      else if n && canWalk Dir.northeast then some Dir.north
      else none
  else if ox ≤ -1 ∧ oy ≤ -1 then
    -- player is SE: escape to NW, W or N
    let w := canWalk Dir.west
    let n := canWalk Dir.north
    if w && n then some (if coin then Dir.west else Dir.north)
    else if w then some Dir.west
    else if n then some Dir.north
    else if canWalk Dir.northwest then some Dir.northwest
    else
      let s := canWalk Dir.south
      let e := canWalk Dir.east
      if flee && s && e then some (if coin then Dir.south else Dir.east)
      else if flee && s then some Dir.south
      else if flee && e then some Dir.east
      else if s && canWalk Dir.southwest then some Dir.south
      else if e && canWalk Dir.northeast then some Dir.east
      else none
  else if 1 ≤ ox ∧ oy ≤ -1 then
    -- player is SW: escape to NE, N or E
    let n := canWalk Dir.north
    let e := canWalk Dir.east
    if n && e then some (if coin then Dir.north else Dir.east)
    else if n then some Dir.north
    else if e then some Dir.east
    else if canWalk Dir.northeast then some Dir.northeast
    else
      let s := canWalk Dir.south
      let w := canWalk Dir.west
      if flee && s && w then some (if coin then Dir.south else Dir.west)
      else if flee && s then some Dir.south
      else if flee && w then some Dir.west
      else if w && canWalk Dir.northwest then some Dir.west
      else if s && canWalk Dir.southeast then some Dir.south
      else none
  else
    -- player is NE (offsetx <= -1 and offsety >= 1, the only remaining
    -- quadrant when dx == dy and the offsets are non-zero): escape to
    -- SW, S or W
    let w := canWalk Dir.west
    let s := canWalk Dir.south
    if w && s then some (if coin then Dir.west else Dir.south)
    else if w then some Dir.west
    else if s then some Dir.south
    else if canWalk Dir.southwest then some Dir.southwest
    else
      let n := canWalk Dir.north
      let e := canWalk Dir.east
      if flee && n && e then some (if coin then Dir.north else Dir.east)
      else if flee && n then some Dir.north
      else if flee && e then some Dir.east
      else if e && canWalk Dir.southeast then some Dir.east
      else if n && canWalk Dir.northwest then some Dir.north
      else none

/-- The `dy > dx` (axis-dominant, north/south) block of
`getDistanceStep`: `playerDir` is SOUTH when `offsety < 0`, NORTH
otherwise; each `break` exit (direction unassigned) is `none`. -/
def distanceStepNS (flee : Bool) (canWalk : Dir → Bool) (coin : Bool)
    (ox oy : Int) : Option Dir :=
  if oy < 0 then
    -- player is to the SOUTH: try NORTH first
    if canWalk Dir.north then some Dir.north
    else
      let w := canWalk Dir.west
      let e := canWalk Dir.east
      if w && e && decide (ox = 0) then some (if coin then Dir.west else Dir.east)
      else if w && decide (ox ≤ 0) then some Dir.west
      else if e && decide (0 ≤ ox) then some Dir.east
      else if flee && w && e then some (if coin then Dir.west else Dir.east)
      else if flee && w then some Dir.west
      else if flee && e then some Dir.east
      else
        let nw := canWalk Dir.northwest
        let ne := canWalk Dir.northeast
        if nw || ne then
          if nw && ne then some (if coin then Dir.northwest else Dir.northeast)
          else if w then some Dir.west
          else if nw then some Dir.northwest
          else if e then some Dir.east
          else if ne then some Dir.northeast
          else none
        else if flee && canWalk Dir.south then some Dir.south
        else none
  else
    -- player is to the NORTH: try SOUTH first
    if canWalk Dir.south then some Dir.south
    else
      let w := canWalk Dir.west
      let e := canWalk Dir.east
      if w && e && decide (ox = 0) then some (if coin then Dir.west else Dir.east)
      else if w && decide (ox ≤ 0) then some Dir.west
      else if e && decide (0 ≤ ox) then some Dir.east
      else if flee && w && e then some (if coin then Dir.west else Dir.east)
      else if flee && w then some Dir.west
      else if flee && e then some Dir.east
      else
        let sw := canWalk Dir.southwest
        let se := canWalk Dir.southeast
        if sw || se then
          if sw && se then some (if coin then Dir.southwest else Dir.southeast)
          else if w then some Dir.west
          else if sw then some Dir.southwest
          else if e then some Dir.east
          else if se then some Dir.southeast
          else none
        else if flee && canWalk Dir.north then some Dir.north
        else none

/-- The `dx >= dy` (axis-dominant, east/west) block of
`getDistanceStep`: `playerDir` is EAST when `offsetx < 0`, WEST
otherwise. -/
def distanceStepEW (flee : Bool) (canWalk : Dir → Bool) (coin : Bool)
    (ox oy : Int) : Option Dir :=
  if ox < 0 then
    -- player is to the EAST: try WEST first
    if canWalk Dir.west then some Dir.west
    else
      let n := canWalk Dir.north
      let s := canWalk Dir.south
      if n && s && decide (oy = 0) then some (if coin then Dir.north else Dir.south)
      else if n && decide (oy ≤ 0) then some Dir.north
      else if s && decide (0 ≤ oy) then some Dir.south
      else if flee && n && s then some (if coin then Dir.north else Dir.south)
      else if flee && n then some Dir.north
      else if flee && s then some Dir.south
      else
        let nw := canWalk Dir.northwest
        let sw := canWalk Dir.southwest
        if nw || sw then
          if nw && sw then some (if coin then Dir.northwest else Dir.southwest)
          else if n then some Dir.north
          else if nw then some Dir.northwest
          else if s then some Dir.south
          else if sw then some Dir.southwest
          else none
        else if flee && canWalk Dir.east then some Dir.east
        else none
  else
    -- player is to the WEST: try EAST first
    if canWalk Dir.east then some Dir.east
    else
      let n := canWalk Dir.north
      let s := canWalk Dir.south
      if n && s && decide (oy = 0) then some (if coin then Dir.north else Dir.south)
      else if n && decide (oy ≤ 0) then some Dir.north
      else if s && decide (0 ≤ oy) then some Dir.south
      else if flee && n && s then some (if coin then Dir.north else Dir.south)
      else if flee && n then some Dir.north
      else if flee && s then some Dir.south
      else
        let se := canWalk Dir.southeast
        let ne := canWalk Dir.northeast
        if se || ne then
          if se && ne then some (if coin then Dir.southeast else Dir.northeast)
          else if s then some Dir.south
          else if se then some Dir.southeast
          else if n then some Dir.north
          else if ne then some Dir.northeast
          else none
        else if flee && canWalk Dir.west then some Dir.west
        else none

/-- Embedding of `Monster::getDistanceStep`.  `(cx, cy)` is the monster,
`(tx, ty)` the target position, `targetDistance` the species target
distance.  In the non-fleeing defer branch and the random-step branch
the source returns false; every later branch returns true (with the
direction possibly left unassigned). -/
def getDistanceStep (cx cy tx ty : Int) (targetDistance : Nat)
    (flee : Bool) (sight : Bool) (canWalk : Dir → Bool)
    (shuffled : List Dir) (coin : Bool) (stepDuration : Nat) :
    Bool × Option Dir × Nat :=
  let dx := (cx - tx).natAbs
  let dy := (cy - ty).natAbs
  let distance := max dx dy
  if flee = false ∧ (targetDistance < distance ∨ sight = false) then
    (false, none, stepDuration)   -- let the A* calculate it
  else if flee = false ∧ distance = targetDistance then
    (true, none, stepDuration)    -- already at the wanted distance
  else
    let ox := cx - tx
    let oy := cy - ty
    let sd :=
      if dx ≤ 1 ∧ dy ≤ 1 then
        if stepDuration < 2 then stepDuration + 1 else stepDuration
      else
        if 0 < stepDuration then stepDuration - 1 else stepDuration
    if ox = 0 ∧ oy = 0 then
      -- player is "on" the monster: random step
      match getRandomStep shuffled canWalk with
      | some d => (true, some d, sd)
      | none => (false, none, sd)
    else if dx = dy then
      (true, distanceStepDiag flee canWalk coin ox oy, sd)
    else if dx < dy then
      (true, distanceStepNS flee canWalk coin ox oy, sd)
    else
      (true, distanceStepEW flee canWalk coin ox oy, sd)

/-- C6 counterexample: the claim says `getDistanceStep` returns false
only in the non-fleeing defer case (distance beyond the species target
distance or blocked line of sight).  With `flee = true`, the target on
the monster's own tile and no walkable direction, the random-step branch
returns false as well. -/
theorem getDistanceStep_flee_returns_false :
    (getDistanceStep 10 10 10 10 1 true true (fun _ => false)
      [Dir.north, Dir.west, Dir.east, Dir.south] true 0).1 = false := by
  decide

/-- C6 (amended): `getDistanceStep` returns false only when (a) not
fleeing and the Chebyshev distance exceeds the species target distance
or line of sight is blocked (defer to A*), or (b) the target shares the
monster's tile and the random step finds no walkable direction; and in
the defer case (a) it always returns false.  Every other branch returns
true, even where the direction is left unassigned. -/
theorem getDistanceStep_false_characterization (cx cy tx ty : Int)
    (targetDistance : Nat) (flee sight : Bool) (canWalk : Dir → Bool)
    (shuffled : List Dir) (coin : Bool) (stepDuration : Nat) :
    ((getDistanceStep cx cy tx ty targetDistance flee sight canWalk
        shuffled coin stepDuration).1 = false →
      (flee = false ∧ (targetDistance < max (cx - tx).natAbs (cy - ty).natAbs
          ∨ sight = false)) ∨
      (cx = tx ∧ cy = ty ∧ getRandomStep shuffled canWalk = none)) ∧
    ((flee = false ∧ (targetDistance < max (cx - tx).natAbs (cy - ty).natAbs
          ∨ sight = false)) →
      (getDistanceStep cx cy tx ty targetDistance flee sight canWalk
        shuffled coin stepDuration).1 = false) := by
  by_cases h1 : flee = false ∧ (targetDistance < max (cx - tx).natAbs
      (cy - ty).natAbs ∨ sight = false)
  · refine ⟨fun _ => Or.inl h1, fun _ => ?_⟩
    simp only [getDistanceStep]
    rw [if_pos h1]
  · refine ⟨?_, fun hA => absurd hA h1⟩
    intro h
    simp only [getDistanceStep] at h
    rw [if_neg h1] at h
    by_cases h2 : flee = false ∧ max (cx - tx).natAbs (cy - ty).natAbs
        = targetDistance
    · rw [if_pos h2] at h
      simp at h
    · rw [if_neg h2] at h
      by_cases h3 : cx - tx = 0 ∧ cy - ty = 0
      · rw [if_pos h3] at h
        rcases hr : getRandomStep shuffled canWalk with _ | d
        · exact Or.inr ⟨sub_eq_zero.mp h3.1, sub_eq_zero.mp h3.2, rfl⟩
        · rw [hr] at h
          simp at h
      · rw [if_neg h3] at h
        by_cases h4 : (cx - tx).natAbs = (cy - ty).natAbs
        · rw [if_pos h4] at h
          simp at h
        · rw [if_neg h4] at h
          by_cases h5 : (cx - tx).natAbs < (cy - ty).natAbs
          · rw [if_pos h5] at h
            simp at h
          · rw [if_neg h5] at h
            simp at h

/-- C6 witness: not fleeing at Chebyshev distance 9 with target distance
1, the function defers to pathfinding (returns false). -/
theorem getDistanceStep_false_characterization_witness :
    (getDistanceStep 0 0 9 0 1 false true (fun _ => true)
      [Dir.north, Dir.west, Dir.east, Dir.south] true 0).1 = false :=
  (getDistanceStep_false_characterization 0 0 9 0 1 false true
    (fun _ => true) [Dir.north, Dir.west, Dir.east, Dir.south] true 0).2
    ⟨rfl, Or.inl (by decide)⟩
